import Mathlib

/-!
Verification development for the whisper-stream-web repository.

The repository contains three React components:
 * `TranscriptionApp` (temp/live-whisper/src/TranscriptionApp.tsx): MediaRecorder
   capture, a `detectSilence` loop comparing `20*log10(rms)` against
   `VAD_THRESHOLD = -45`, a `mediaRecorder.onstop` handler that builds a blob
   from `currentChunks`, POSTs it, and restarts the recorder after the
   response arrives.
 * `RealTimeTranscriptionVAD` (src/RealTimeTranscriptionVAD.tsx, first
   component): `useMicVAD` with `onSpeechEnd` prepending the clip to
   `audioList` and `sendAudioForTranscription` appending the response text to
   `transcription` when each request completes.
 * `AudioTranscription` (src/RealTimeTranscriptionVAD.tsx, second component):
   MediaRecorder with a 1000 ms timeslice, a `checkAudioLevel` loop with
   `SILENCE_THRESHOLD = -50` scheduling a `setTimeout` that submits the queued
   audio, and `processAudioChunk` which stops recording when a request fails.

All three are embedded as executable state machines.  Audio blobs are
modelled as lists of naturals (byte identities), frames as lists of
rationals (normalized samples).  Browser events (recorder `dataavailable` /
`stop` events, network completions, timer callbacks) are labels of the
single-threaded event loop.
-/

namespace WhisperStream

/-! ### Constants -/

/-- Constant `VAD_THRESHOLD` from TranscriptionApp.tsx line 11. -/
def VAD_THRESHOLD : ℤ := -45

/-- Constant `SILENCE_THRESHOLD` from RealTimeTranscriptionVAD.tsx line 132
(the `AudioTranscription` component). -/
def SILENCE_THRESHOLD : ℤ := -50

/-- Constant `SILENCE_DURATION` (1000 ms), identical in both files. -/
def SILENCE_DURATION : ℕ := 1000

/-! ### Activity detector (TranscriptionApp.detectSilence lines 32-38,
AudioTranscription.checkAudioLevel lines 221-229)

The source computes `rms = sqrt(Σ v² / n)` and `db = 20 * log10(rms)`, then
tests `db < THRESHOLD`.  We embed the mean square `rmsSq = Σ v² / n` (so
`db = 10 * log10 rmsSq`) and use the strictly monotone transformation
`db < T  ↔  rmsSq ^ 10 < 10 ^ T`  (valid since `rmsSq ≥ 0` and `10 ^ T > 0`),
which is exact and avoids real logarithms.  `rms = 0` gives `db = -Infinity`
in the source (JavaScript `Math.log10(0)`), below every threshold; the
transformed test gives `0 < 10 ^ T`, also true for every `T`, so an all-zero
frame is classified as silence in both. -/

/-- Ten to the power `T` as a rational, for an integer exponent `T`. -/
def tenPow : ℤ → ℚ
  | Int.ofNat n => (10 : ℚ) ^ n
  | Int.negSucc n => 1 / (10 : ℚ) ^ (n + 1)

/-- Mean square of a frame: `dataArray.reduce((s,v) => s + v*v, 0) / length`. -/
def rmsSq (frame : List ℚ) : ℚ :=
  (frame.map (fun v => v * v)).sum / (frame.length : ℚ)

/-- The `db < T` branch test of `detectSilence` / `checkAudioLevel`, expressed
in mean-square space: `20*log10(rms) < T ↔ rmsSq^10 < 10^T`. -/
def isSilentFrame (frame : List ℚ) (T : ℤ) : Bool :=
  decide (rmsSq frame ^ 10 < tenPow T)

/-- The speech classification `level >= threshold`, i.e. not silent. -/
def isSpeechFrame (frame : List ℚ) (T : ℤ) : Bool :=
  ! isSilentFrame frame T

/-! ### Segment builder (TranscriptionApp.detectSilence lines 39-51, with
`ondataavailable` lines 67-69 as the fragment source)

State of the silence-driven boundary logic: `silenceStart` mirrors the
`silenceStart` ref, `chunks` mirrors `currentChunks` (the accumulator the
emission guard tests), `emitted` logs each emission event
(`mediaRecorder.stop()` call) with the accumulator snapshot at that moment.
Note the source clears `currentChunks` on emission but does NOT clear
`silenceStart` (line 50 clears it only on speech). -/

structure SB where
  silenceStart : Option ℕ
  chunks : List ℕ
  emitted : List (List ℕ)
  deriving DecidableEq

/-- Handler `ondataavailable`: `currentChunks.current.push(e.data)`. -/
def onFragment (s : SB) (f : ℕ) : SB :=
  { s with chunks := s.chunks ++ [f] }

/-- The branch structure of `detectSilence` after the `db` test:
`isSpeech = (db >= VAD_THRESHOLD)` is the negation of the `db < VAD_THRESHOLD`
test.  Silence branch: start the silence timer if unset, else emit when
`Date.now() - silenceStart > SILENCE_DURATION` (strict `>` in the source) and
`currentChunks.length > 0`.  Speech branch: `silenceStart = null`. -/
def onActivity (s : SB) (isSpeech : Bool) (now : ℕ) : SB :=
  match isSpeech with
  | true => { s with silenceStart := none }
  | false =>
      match s.silenceStart with
      | none => { s with silenceStart := some now }
      | some t0 =>
          if SILENCE_DURATION < now - t0 ∧ s.chunks ≠ [] then
            { s with emitted := s.emitted ++ [s.chunks], chunks := [] }
          else s

inductive SBEv where
  | frag (f : ℕ)
  | act (isSpeech : Bool) (now : ℕ)
  deriving DecidableEq

def sbStep (s : SB) : SBEv → SB
  | SBEv.frag f => onFragment s f
  | SBEv.act sp now => onActivity s sp now

def sbInit : SB := ⟨none, [], []⟩

def runSBFrom (s : SB) (tr : List SBEv) : SB := tr.foldl sbStep s

def runSB (tr : List SBEv) : SB := runSBFrom sbInit tr

/-! ### RealTimeTranscriptionVAD component (src/RealTimeTranscriptionVAD.tsx
lines 5-43)

`onSpeechEnd` (lines 11-22) prepends the finished clip's URL to `audioList`
(`setAudioList((prev) => [audioURL, ...prev])`) and issues
`sendAudioForTranscription`; each completion appends the text
(`setTranscription((prev) => [...prev, response.data.text])`) or logs the
error.  Clips are identified by their sample lists (the WAV/base64 encoding
is injective bookkeeping irrelevant to ordering).  `net k res` completes the
`k`-th outstanding request, allowing any completion order. -/

structure RTV where
  audioList : List (List ℕ)
  transcription : List String
  inFlight : List (List ℕ)
  submitted : List (List ℕ)
  deriving DecidableEq

inductive RL where
  | speechEnd (a : List ℕ)
  | net (k : ℕ) (res : Option String)
  deriving DecidableEq

def rtvStep (s : RTV) : RL → RTV
  | RL.speechEnd a =>
      { s with audioList := a :: s.audioList,
               inFlight := s.inFlight ++ [a],
               submitted := s.submitted ++ [a] }
  | RL.net k res =>
      if k < s.inFlight.length then
        { s with inFlight := s.inFlight.eraseIdx k,
                 transcription :=
                   match res with
                   | some t => s.transcription ++ [t]
                   | none => s.transcription }
      else s

def rtvInit : RTV := ⟨[], [], [], []⟩

def runRTVFrom (s : RTV) (tr : List RL) : RTV := tr.foldl rtvStep s

def runRTV (tr : List RL) : RTV := runRTVFrom rtvInit tr

/-- A trace is valid when every completion label refers to an outstanding
request at its point in the trace. -/
def validFrom (s : RTV) : List RL → Bool
  | [] => true
  | l :: tr =>
      (match l with
       | RL.net k _ => decide (k < s.inFlight.length)
       | RL.speechEnd _ => true) && validFrom (rtvStep s l) tr

/-- The clips captured by a trace, in capture order. -/
def captures (tr : List RL) : List (List ℕ) :=
  tr.filterMap fun l =>
    match l with
    | RL.speechEnd a => some a
    | RL.net _ _ => none

/-- The texts of successful completions, in completion order. -/
def succTexts (tr : List RL) : List String :=
  tr.filterMap fun l =>
    match l with
    | RL.net _ (some t) => some t
    | _ => none

/-! ### TranscriptionApp session machine (temp/live-whisper/src/
TranscriptionApp.tsx lines 14-127)

The model state carries the React state (`isRecording`, `status`,
`transcriptions`, `audioChunks`), the refs (`currentChunks`, `silenceStart`,
`mediaRecorder` with its internal buffer), the macrotask queue of recorder
events, and the outstanding fetches (`inFlight`) with a log of everything
ever POSTed (`submitted`).

Per the MediaRecorder specification, `stop()` on an inactive recorder returns
without effect; on a recording one it transitions to `"inactive"` and fires a
final `dataavailable` event carrying the buffered audio, then the `stop`
event.  `start()` was called without a timeslice, so data is delivered only
on stop. -/

inductive RStat where
  | recording
  | inactive
  deriving DecidableEq

structure MR where
  stat : RStat
  buffered : List ℕ
  deriving DecidableEq

inductive MRTask where
  | dataAvail (d : List ℕ)
  | stopFired
  deriving DecidableEq

inductive AppStatus where
  | idle
  | recording
  | transcribing
  | error
  deriving DecidableEq

structure App where
  mr : Option MR
  isRecording : Bool
  status : AppStatus
  transcriptions : List String
  audioChunks : List (List ℕ)
  currentChunks : List (List ℕ)
  silenceStart : Option ℕ
  queue : List MRTask
  inFlight : List (List ℕ)
  submitted : List (List ℕ)
  deriving DecidableEq

/-- Effect of `mediaRecorder.stop()`. -/
def mrStop (a : App) : App :=
  match a.mr with
  | some r =>
      if r.stat = RStat.recording then
        { a with mr := some ⟨RStat.inactive, []⟩,
                 queue := a.queue ++ [MRTask.dataAvail r.buffered,
                                      MRTask.stopFired] }
      else a
  | none => a

/-- Effect of `mediaRecorder.start()` (throws on a non-inactive recorder, leaving no
further state change; on an inactive one it begins recording afresh). -/
def mrStart (a : App) : App :=
  match a.mr with
  | some r =>
      if r.stat = RStat.inactive then
        { a with mr := some ⟨RStat.recording, []⟩ }
      else a
  | none => a

/-- Event-loop labels for `TranscriptionApp`:
`start` = `startRecording` success path (lines 54-112);
`cap f` = the device delivers audio into the recorder's buffer;
`vad silent now` = one `detectSilence` tick (lines 29-52), where `silent` is
the embedded detector's verdict `isSilentFrame frame VAD_THRESHOLD` on the
current analyser frame (the `db < VAD_THRESHOLD` test of line 39);
`task` = the event loop runs the head recorder event (`ondataavailable`
lines 67-69 / `onstop` lines 71-100 up to its `await`);
`net res` = the awaited fetch completes (lines 92-99), `none` is the caught
failure path;
`stop` = `stopRecording` (lines 119-127). -/
inductive L where
  | start
  | cap (f : ℕ)
  | vad (silent : Bool) (now : ℕ)
  | task
  | net (res : Option String)
  | stop
  deriving DecidableEq

def appStep (a : App) : L → App
  | L.start =>
      { a with mr := some ⟨RStat.recording, []⟩, isRecording := true,
               status := AppStatus.recording }
  | L.cap f =>
      match a.mr with
      | some r =>
          if r.stat = RStat.recording then
            { a with mr := some ⟨RStat.recording, r.buffered ++ [f]⟩ }
          else a
      | none => a
  | L.vad silent now =>
      match a.mr with
      | none => a
      | some _ =>
          match silent with
          | true =>
              match a.silenceStart with
              | none => { a with silenceStart := some now }
              | some t0 =>
                  if SILENCE_DURATION < now - t0 ∧ a.currentChunks ≠ [] then
                    { mrStop a with currentChunks := [] }
                  else a
          | false => { a with silenceStart := none }
  | L.task =>
      match a.queue with
      | [] => a
      | MRTask.dataAvail d :: q =>
          { a with currentChunks := a.currentChunks ++ [d], queue := q }
      | MRTask.stopFired :: q =>
          { a with audioChunks := a.audioChunks ++ [a.currentChunks.flatten],
                   status := AppStatus.transcribing,
                   submitted := a.submitted ++ [a.currentChunks.flatten],
                   inFlight := a.inFlight ++ [a.currentChunks.flatten],
                   queue := q }
  | L.net res =>
      match a.inFlight with
      | [] => a
      | _b :: rest =>
          mrStart
            { a with transcriptions :=
                       match res with
                       | some t => a.transcriptions ++ [t]
                       | none => a.transcriptions,
                     status := AppStatus.recording,
                     inFlight := rest }
  | L.stop =>
      match a.mr with
      | some r =>
          if r.stat ≠ RStat.inactive then
            { mrStop a with isRecording := false, status := AppStatus.idle }
          else a
      | none => a

def appInit : App := ⟨none, false, AppStatus.idle, [], [], [], none, [], [], []⟩

def runAppFrom (a : App) (tr : List L) : App := tr.foldl appStep a

def runApp (tr : List L) : App := runAppFrom appInit tr

/-- The state right after a successful `startRecording` from the pristine
component. -/
def startedApp : App := appStep appInit L.start

/-- 1 when the recorder exists and is actively recording. -/
def mrTok : Option MR → ℕ
  | some r => if r.stat = RStat.recording then 1 else 0
  | none => 0

/-- Number of pending `stop` events in the macrotask queue. -/
def stopCount : List MRTask → ℕ
  | [] => 0
  | MRTask.stopFired :: q => stopCount q + 1
  | MRTask.dataAvail _ :: q => stopCount q

/-- Single-session token invariant: exactly one of {recorder recording,
a pending `stop` event, an outstanding fetch} at any time. -/
def AppInv (a : App) : Prop :=
  mrTok a.mr + stopCount a.queue + a.inFlight.length = 1 ∧ a.mr ≠ none

/-! ### AudioTranscription component (src/RealTimeTranscriptionVAD.tsx
lines 121-304)

`startRecording` (lines 256-293) starts the recorder with a 1000 ms
timeslice, `checkAudioLevel` (lines 218-253) schedules a `setTimeout` of
`SILENCE_DURATION` on entering silence (and only clears it on speech — the
callback itself never nulls `silenceTimeout.current`, so after it fires no
new timer is scheduled until speech resets the ref), the timer callback
(lines 233-241) submits the joined `audioQueue` via `processAudioChunk`
(lines 174-206), whose catch branch sets the error and calls
`stopRecording` (lines 295-304).  There is no `onstop` handler, so the
recorder's final `stop` event is dropped.  The `if (!isRecording) return`
guard of `checkAudioLevel` is modelled against the current state. -/

structure AT where
  isRecording : Bool
  transcription : String
  error : Option String
  mr : Option MR
  audioQueue : List (List ℕ)
  timerSet : Bool
  timerPending : Bool
  inFlight : List (List ℕ)
  submitted : List (List ℕ)
  queue : List MRTask
  deriving DecidableEq

/-- Effect of `mediaRecorder.stop()` on the `AudioTranscription` recorder. -/
def atMrStop (t : AT) : AT :=
  match t.mr with
  | some r =>
      if r.stat = RStat.recording then
        { t with mr := some ⟨RStat.inactive, []⟩,
                 queue := t.queue ++ [MRTask.dataAvail r.buffered,
                                      MRTask.stopFired] }
      else t
  | none => t

/-- Function `stopRecording` (lines 295-304): the recorder/track part is guarded,
but `setIsRecording(false)` runs unconditionally. -/
def atStopRecording (t : AT) : AT :=
  { atMrStop t with isRecording := false }

/-- Event-loop labels for `AudioTranscription`.  In `vadTick silent`,
`silent` is the embedded detector's verdict
`isSilentFrame frame SILENCE_THRESHOLD` on the current analyser frame
(the `db < SILENCE_THRESHOLD` test of line 231). -/
inductive ATL where
  | start
  | cap (f : ℕ)
  | flush
  | vadTick (silent : Bool)
  | timerFire
  | task
  | net (res : Option String)
  | stopU
  deriving DecidableEq

def atStep (t : AT) : ATL → AT
  | ATL.start =>
      { t with error := none, mr := some ⟨RStat.recording, []⟩,
               isRecording := true }
  | ATL.cap f =>
      match t.mr with
      | some r =>
          if r.stat = RStat.recording then
            { t with mr := some ⟨RStat.recording, r.buffered ++ [f]⟩ }
          else t
      | none => t
  | ATL.flush =>
      match t.mr with
      | some r =>
          if r.stat = RStat.recording then
            { t with mr := some ⟨RStat.recording, []⟩,
                     queue := t.queue ++ [MRTask.dataAvail r.buffered] }
          else t
      | none => t
  | ATL.vadTick silent =>
      match t.isRecording with
      | false => t
      | true =>
          match silent with
          | true =>
              if t.timerSet then t
              else { t with timerSet := true, timerPending := true }
          | false =>
              if t.timerSet then
                { t with timerSet := false, timerPending := false }
              else t
  | ATL.timerFire =>
      if t.timerPending then
        if t.audioQueue ≠ [] then
          { t with timerPending := false,
                   submitted := t.submitted ++ [t.audioQueue.flatten],
                   inFlight := t.inFlight ++ [t.audioQueue.flatten],
                   audioQueue := [] }
        else { t with timerPending := false }
      else t
  | ATL.task =>
      match t.queue with
      | [] => t
      | MRTask.dataAvail d :: q =>
          if d ≠ [] then { t with audioQueue := t.audioQueue ++ [d], queue := q }
          else { t with queue := q }
      | MRTask.stopFired :: q => { t with queue := q }
  | ATL.net res =>
      match t.inFlight with
      | [] => t
      | _b :: rest =>
          match res with
          | some txt =>
              if txt ≠ "" then
                { t with transcription := t.transcription ++ " " ++ txt,
                         inFlight := rest }
              else { t with inFlight := rest }
          | none =>
              atStopRecording
                { t with error := some ("Error processing audio"),
                         inFlight := rest }
  | ATL.stopU => atStopRecording t

def atInit : AT := ⟨false, "", none, none, [], false, false, [], [], []⟩

def runATFrom (t : AT) (tr : List ATL) : AT := tr.foldl atStep t

def runAT (tr : List ATL) : AT := runATFrom atInit tr

/-! ## Helper lemmas -/

theorem tenPow_pos (T : ℤ) : 0 < tenPow T := by
  cases T with
  | ofNat n => exact pow_pos (by norm_num) n
  | negSucc n =>
      simp only [tenPow]
      positivity

theorem rmsSq_zero_frame (n : ℕ) : rmsSq (List.replicate n 0) = 0 := by
  unfold rmsSq
  have h : (List.replicate n (0:ℚ)).map (fun v => v * v)
      = List.replicate n 0 := by
    simp [List.map_replicate]
  rw [h, List.sum_replicate]
  simp

/-- An activity sample never touches the emission log when the accumulator is
empty, and leaves the accumulator empty. -/
theorem onActivity_empty_chunks (s : SB) (sp : Bool) (now : ℕ)
    (h : s.chunks = []) :
    (onActivity s sp now).emitted = s.emitted ∧
      (onActivity s sp now).chunks = [] := by
  unfold onActivity
  rcases sp with _ | _
  · cases hs : s.silenceStart with
    | none => simp [h]
    | some t0 => simp [h]
  · simp [h]

/-- Running the RealTimeTranscriptionVAD machine over a valid trace:
`audioList` collects the captured clips newest-first, `transcription`
collects the successful completion texts in completion order. -/
theorem rtv_run_spec (tr : List RL) (s : RTV) (h : validFrom s tr = true) :
    (runRTVFrom s tr).audioList = (captures tr).reverse ++ s.audioList ∧
      (runRTVFrom s tr).transcription = s.transcription ++ succTexts tr := by
  induction tr generalizing s with
  | nil => simp [runRTVFrom, captures, succTexts]
  | cons l tr ih =>
      have hrun : runRTVFrom s (l :: tr) = runRTVFrom (rtvStep s l) tr := rfl
      cases l with
      | speechEnd a =>
          simp only [validFrom, Bool.true_and] at h
          rcases ih (rtvStep s (RL.speechEnd a)) h with ⟨ha, ht⟩
          refine ⟨?_, ?_⟩
          · rw [hrun, ha]
            simp [rtvStep, captures, List.filterMap_cons]
          · rw [hrun, ht]
            simp [rtvStep, succTexts, List.filterMap_cons]
      | net k res =>
          simp only [validFrom, Bool.and_eq_true, decide_eq_true_eq] at h
          obtain ⟨hk, htr⟩ := h
          rcases ih (rtvStep s (RL.net k res)) htr with ⟨ha, ht⟩
          refine ⟨?_, ?_⟩
          · rw [hrun, ha]
            cases res with
            | some t => simp [rtvStep, hk, captures, List.filterMap_cons]
            | none => simp [rtvStep, hk, captures, List.filterMap_cons]
          · rw [hrun, ht]
            cases res with
            | some t => simp [rtvStep, hk, succTexts, List.filterMap_cons]
            | none => simp [rtvStep, hk, succTexts, List.filterMap_cons]

/-! ## Claim C8 — activity-detector classification -/

/-- C8 (amended): the classifier is total and monotone as described by the
code: an all-zero frame is silence for every threshold (the `-Infinity`
level), a frame is speech exactly when its level reaches the threshold
(expressed in mean-square space), and everything silent at
AudioTranscription's `-50` dB threshold is silent at TranscriptionApp's
`-45` dB threshold.  The claim's single "default −45 dB" is refuted by
`SILENCE_THRESHOLD = -50` (see the counterexample). -/
theorem detector_classification :
    (∀ (n : ℕ) (T : ℤ), isSpeechFrame (List.replicate n 0) T = false) ∧
    (∀ f : List ℚ, isSilentFrame f SILENCE_THRESHOLD = true →
        isSilentFrame f VAD_THRESHOLD = true) ∧
    (∀ (f : List ℚ) (T : ℤ),
        isSpeechFrame f T = true ↔ tenPow T ≤ rmsSq f ^ 10) := by
  refine ⟨?_, ?_, ?_⟩
  · intro n T
    have h0 : rmsSq (List.replicate n 0) ^ 10 < tenPow T := by
      rw [rmsSq_zero_frame]
      simpa using tenPow_pos T
    simp [isSpeechFrame, isSilentFrame, h0]
  · intro f h
    have h1 : rmsSq f ^ 10 < tenPow SILENCE_THRESHOLD :=
      of_decide_eq_true h
    have h2 : tenPow SILENCE_THRESHOLD < tenPow VAD_THRESHOLD := by
      rw [show tenPow SILENCE_THRESHOLD = 1 / (10:ℚ) ^ 50 from rfl,
          show tenPow VAD_THRESHOLD = 1 / (10:ℚ) ^ 45 from rfl]
      norm_num
    exact decide_eq_true (lt_trans h1 h2)
  · intro f T
    constructor
    · intro h
      have : isSilentFrame f T = false := by
        cases hb : isSilentFrame f T
        · rfl
        · simp [isSpeechFrame, hb] at h
      exact not_lt.mp (of_decide_eq_false this)
    · intro h
      have : isSilentFrame f T = false :=
        decide_eq_false (not_lt.mpr h)
      simp [isSpeechFrame, this]

/-- C8 witness: concrete instances of the amended classification. -/
theorem detector_classification_instance :
    isSpeechFrame (List.replicate 3 0) VAD_THRESHOLD = false ∧
      isSilentFrame [0] VAD_THRESHOLD = true := by
  have h0 : isSilentFrame [0] SILENCE_THRESHOLD = true := by
    apply decide_eq_true
    have hr : rmsSq [0] = 0 := by simp [rmsSq]
    rw [hr]
    have h10 : (0:ℚ) ^ 10 = 0 := by norm_num
    rw [h10]
    exact tenPow_pos SILENCE_THRESHOLD
  exact ⟨detector_classification.1 3 VAD_THRESHOLD,
         detector_classification.2.1 [0] h0⟩

/-- C8 counterexample: the frame of constant value 1/200 has level
`20*log10(0.005) ≈ -46 dB`, i.e. below −45 dB, yet AudioTranscription's
detector (`SILENCE_THRESHOLD = -50`) classifies it as speech — the code does
not use a single −45 dB default. -/
theorem threshold_mismatch_counterexample :
    isSpeechFrame [1/200] SILENCE_THRESHOLD = true ∧
      isSpeechFrame [1/200] VAD_THRESHOLD = false ∧
      SILENCE_THRESHOLD ≠ VAD_THRESHOLD := by
  have hr : rmsSq [1/200] = 1/40000 := by
    simp [rmsSq]
    norm_num
  refine ⟨?_, ?_, by decide⟩
  · have hnot : ¬ (rmsSq [1/200] ^ 10 < tenPow SILENCE_THRESHOLD) := by
      rw [hr, show tenPow SILENCE_THRESHOLD = 1 / (10:ℚ) ^ 50 from rfl]
      norm_num
    unfold isSpeechFrame
    rw [show isSilentFrame [1/200] SILENCE_THRESHOLD = false
          from decide_eq_false hnot]
    rfl
  · have hlt : rmsSq [1/200] ^ 10 < tenPow VAD_THRESHOLD := by
      rw [hr, show tenPow VAD_THRESHOLD = 1 / (10:ℚ) ^ 45 from rfl]
      norm_num
    unfold isSpeechFrame
    rw [show isSilentFrame [1/200] VAD_THRESHOLD = true
          from decide_eq_true hlt]
    rfl

/-! ## Claim C4 — segment emission condition -/

/-- C4 (amended): an activity sample causes an emission **iff** it is
silence, a silence episode is already pending from `silenceStartedAt = t0`,
strictly more than `SILENCE_DURATION` has elapsed (`now - t0 > 1000`, not
`≥`), and the accumulator is non-empty; in particular emission never occurs
on an empty accumulator, and no speech since the last emission is required. -/
theorem segment_emission_characterization (s : SB) (sp : Bool) (now : ℕ) :
    ((onActivity s sp now).emitted ≠ s.emitted ↔
      (sp = false ∧ ∃ t0, s.silenceStart = some t0 ∧
        SILENCE_DURATION < now - t0 ∧ s.chunks ≠ [])) ∧
    (s.chunks = [] → (onActivity s sp now).emitted = s.emitted) := by
  refine ⟨?_, fun h => (onActivity_empty_chunks s sp now h).1⟩
  cases sp with
  | true => simp [onActivity]
  | false =>
      cases hs : s.silenceStart with
      | none => simp [onActivity, hs]
      | some t0 =>
          by_cases hc : SILENCE_DURATION < now - t0 ∧ s.chunks ≠ []
          · have hstep : onActivity s false now
                = { s with emitted := s.emitted ++ [s.chunks], chunks := [] } := by
              simp [onActivity, hs, if_pos hc]
            rw [hstep]
            constructor
            · intro _
              exact ⟨rfl, t0, rfl, hc.1, hc.2⟩
            · intro _ heq
              have hlen := congrArg List.length heq
              simp at hlen
          · have hstep : onActivity s false now = s := by
              simp [onActivity, hs, if_neg hc]
            rw [hstep]
            constructor
            · intro h
              exact absurd rfl h
            · rintro ⟨-, t0', ht0', hlt, hne⟩
              have ht : t0 = t0' := Option.some.inj ht0'
              subst ht
              exact absurd ⟨hlt, hne⟩ hc

/-- C4 witness: a pending silence episode from t=0, a non-empty accumulator
and a sample at t=1001 (elapsed 1001 > 1000) does emit. -/
theorem segment_emission_instance :
    (onActivity ⟨some 0, [5], []⟩ false 1001).emitted ≠ [] :=
  (segment_emission_characterization ⟨some 0, [5], []⟩ false 1001).1.mpr
    ⟨rfl, 0, rfl, by decide, by decide⟩

/-- C4 counterexample: a fragment, speech at t=5, then silence at t=10 and
t=1010.  The elapsed silence is exactly `SILENCE_DURATION` (1010 − 10 =
1000 ≥ 1000), the accumulator is non-empty, and speech occurred since the
last emission, so the claim predicts an emission — yet the code's strict
`Date.now() - silenceStart > SILENCE_DURATION` does not fire. -/
theorem segment_emission_geq_counterexample :
    (runSB [SBEv.frag 0, SBEv.act true 5, SBEv.act false 10,
            SBEv.act false 1010]).emitted = [] ∧
      (runSB [SBEv.frag 0, SBEv.act true 5, SBEv.act false 10,
              SBEv.act false 1010]).chunks = [0] ∧
      (runSB [SBEv.frag 0, SBEv.act true 5, SBEv.act false 10,
              SBEv.act false 1010]).silenceStart = some 10 ∧
      SILENCE_DURATION ≤ 1010 - 10 := by
  refine ⟨by decide, by decide, by decide, by decide⟩

/-! ## Claim C5 — re-emission within one silence episode -/

/-- C5 (amended): after an emission the accumulator is empty, and as long as
only activity samples arrive (no new fragments), no further emission occurs —
regardless of whether they are silence or speech.  (Idempotence holds only
while the accumulator stays empty: the source never clears `silenceStart` on
emission, so a new fragment during the same silence episode re-triggers
emission; see the counterexample.) -/
theorem no_reemission_on_empty_accumulator (s : SB) (h : s.chunks = [])
    (tr : List SBEv) (htr : ∀ e ∈ tr, ∃ sp now, e = SBEv.act sp now) :
    (runSBFrom s tr).emitted = s.emitted := by
  induction tr generalizing s with
  | nil => rfl
  | cons e tr ih =>
      rcases htr e (List.mem_cons_self e tr) with ⟨sp, now, rfl⟩
      have hstep := onActivity_empty_chunks s sp now h
      have hrun : runSBFrom s (SBEv.act sp now :: tr)
          = runSBFrom (onActivity s sp now) tr := rfl
      rw [hrun, ih (onActivity s sp now) hstep.2
        (fun e he => htr e (List.mem_cons_of_mem _ he)), hstep.1]

/-- C5 witness: after an emission (empty accumulator, `silenceStart` still
set, one segment already emitted), two further silence samples emit
nothing. -/
theorem no_reemission_instance :
    (runSBFrom ⟨some 0, [], [[1]]⟩
      [SBEv.act false 2000, SBEv.act false 4000]).emitted = [[1]] :=
  no_reemission_on_empty_accumulator ⟨some 0, [], [[1]]⟩ rfl
    [SBEv.act false 2000, SBEv.act false 4000]
    (by intro e he; fin_cases he <;> exact ⟨_, _, rfl⟩)

/-- C5 counterexample: fragment, silence at t=0, silence at t=1001 (first
emission); then a new fragment and silence at t=1002 — with **no**
intervening speech sample — emits a second segment, because `silenceStart`
is never cleared on emission.  The claim's per-silence-episode idempotence
fails. -/
theorem reemission_same_silence_counterexample :
    (runSB [SBEv.frag 0, SBEv.act false 0, SBEv.act false 1001,
            SBEv.frag 1, SBEv.act false 1002]).emitted = [[0], [1]] ∧
      (runSB [SBEv.frag 0, SBEv.act false 0, SBEv.act false 1001,
              SBEv.frag 1, SBEv.act false 1002]).emitted.length = 2 := by
  refine ⟨by decide, by decide⟩

/-! ## TranscriptionApp invariant machinery -/

theorem stopCount_append (q1 q2 : List MRTask) :
    stopCount (q1 ++ q2) = stopCount q1 + stopCount q2 := by
  induction q1 with
  | nil => simp [stopCount]
  | cons t q ih =>
      cases t with
      | dataAvail d =>
          have h1 : stopCount (MRTask.dataAvail d :: q ++ q2)
              = stopCount (q ++ q2) := rfl
          have h2 : stopCount (MRTask.dataAvail d :: q) = stopCount q := rfl
          rw [List.cons_append] at h1
          rw [List.cons_append, h1, h2, ih]
      | stopFired =>
          have h1 : stopCount (MRTask.stopFired :: q ++ q2)
              = stopCount (q ++ q2) + 1 := rfl
          have h2 : stopCount (MRTask.stopFired :: q) = stopCount q + 1 := rfl
          rw [List.cons_append] at h1
          rw [List.cons_append, h1, h2, ih]
          omega

theorem appInv_step (a : App) (l : L) (h : AppInv a) (hl : l ≠ L.start) :
    AppInv (appStep a l) := by
  obtain ⟨mr, isR, st, trs, ac, cc, ss, q, fl, sub⟩ := a
  obtain ⟨hsum, hmr⟩ := h
  simp only at hsum hmr
  cases l with
  | start => exact absurd rfl hl
  | cap f =>
      cases mr with
      | none => exact ⟨hsum, hmr⟩
      | some r =>
          obtain ⟨stat, buf⟩ := r
          cases stat with
          | inactive => exact ⟨hsum, hmr⟩
          | recording => exact ⟨hsum, by simp [appStep]⟩
  | vad silent now =>
      cases mr with
      | none => exact ⟨hsum, hmr⟩
      | some r =>
          obtain ⟨stat, buf⟩ := r
          cases silent with
          | false => exact ⟨hsum, by simp [appStep]⟩
          | true =>
              cases ss with
              | none => exact ⟨hsum, by simp [appStep]⟩
              | some t0 =>
                  by_cases hc : SILENCE_DURATION < now - t0 ∧ cc ≠ []
                  · cases stat with
                    | inactive =>
                        have hstep :
                            appStep ⟨some ⟨RStat.inactive, buf⟩, isR, st, trs,
                                ac, cc, some t0, q, fl, sub⟩ (L.vad true now)
                              = ⟨some ⟨RStat.inactive, buf⟩, isR, st, trs,
                                 ac, [], some t0, q, fl, sub⟩ := by
                          simp [appStep, hc, mrStop]
                        rw [hstep]
                        exact ⟨hsum, by simp⟩
                    | recording =>
                        have hstep :
                            appStep ⟨some ⟨RStat.recording, buf⟩, isR, st, trs,
                                ac, cc, some t0, q, fl, sub⟩ (L.vad true now)
                              = ⟨some ⟨RStat.inactive, []⟩, isR, st, trs,
                                 ac, [], some t0,
                                 q ++ [MRTask.dataAvail buf, MRTask.stopFired],
                                 fl, sub⟩ := by
                          simp [appStep, hc, mrStop]
                        rw [hstep]
                        refine ⟨?_, by simp⟩
                        have h1 : mrTok (some ⟨RStat.recording, buf⟩) = 1 := rfl
                        have h2 : mrTok (some ⟨RStat.inactive, []⟩) = 0 := rfl
                        have h3 : stopCount
                            [MRTask.dataAvail buf, MRTask.stopFired] = 1 := rfl
                        rw [h1] at hsum
                        show 0 + stopCount
                            (q ++ [MRTask.dataAvail buf, MRTask.stopFired])
                            + fl.length = 1
                        rw [stopCount_append, h3]
                        omega
                  · have hstep :
                        appStep ⟨some ⟨stat, buf⟩, isR, st, trs, ac, cc,
                            some t0, q, fl, sub⟩ (L.vad true now)
                          = ⟨some ⟨stat, buf⟩, isR, st, trs, ac, cc,
                             some t0, q, fl, sub⟩ := by
                      simp [appStep, hc]
                    rw [hstep]
                    exact ⟨hsum, hmr⟩
  | task =>
      cases q with
      | nil => exact ⟨hsum, hmr⟩
      | cons tk q' =>
          cases tk with
          | dataAvail d =>
              refine ⟨?_, hmr⟩
              have h2 : stopCount (MRTask.dataAvail d :: q')
                  = stopCount q' := rfl
              rw [h2] at hsum
              exact hsum
          | stopFired =>
              refine ⟨?_, hmr⟩
              have h2 : stopCount (MRTask.stopFired :: q')
                  = stopCount q' + 1 := rfl
              rw [h2] at hsum
              show mrTok mr + stopCount q'
                  + (fl ++ [cc.flatten]).length = 1
              rw [List.length_append]
              simp only [List.length_cons, List.length_nil]
              omega
  | net res =>
      cases fl with
      | nil => exact ⟨hsum, hmr⟩
      | cons b rest =>
          cases mr with
          | none => exact absurd rfl hmr
          | some r =>
              obtain ⟨stat, buf⟩ := r
              have h1r : mrTok (some ⟨RStat.recording, buf⟩) = 1 := rfl
              have h1i : mrTok (some ⟨RStat.inactive, buf⟩) = 0 := rfl
              have hlen : (b :: rest).length = rest.length + 1 := rfl
              cases stat with
              | recording =>
                  exfalso
                  rw [h1r, hlen] at hsum
                  omega
              | inactive =>
                  have hstep :
                      appStep ⟨some ⟨RStat.inactive, buf⟩, isR, st, trs, ac,
                          cc, ss, q, b :: rest, sub⟩ (L.net res)
                        = ⟨some ⟨RStat.recording, []⟩, isR,
                           AppStatus.recording,
                           (match res with
                            | some t => trs ++ [t]
                            | none => trs),
                           ac, cc, ss, q, rest, sub⟩ := by
                    cases res with
                    | some t => simp [appStep, mrStart]
                    | none => simp [appStep, mrStart]
                  rw [hstep]
                  refine ⟨?_, by simp⟩
                  rw [h1i, hlen] at hsum
                  have h2 : mrTok (some ⟨RStat.recording, []⟩) = 1 := rfl
                  show mrTok (some ⟨RStat.recording, []⟩) + stopCount q
                      + rest.length = 1
                  rw [h2]
                  omega
  | stop =>
      cases mr with
      | none => exact ⟨hsum, hmr⟩
      | some r =>
          obtain ⟨stat, buf⟩ := r
          cases stat with
          | inactive => exact ⟨hsum, hmr⟩
          | recording =>
              have hstep :
                  appStep ⟨some ⟨RStat.recording, buf⟩, isR, st, trs, ac, cc,
                      ss, q, fl, sub⟩ L.stop
                    = ⟨some ⟨RStat.inactive, []⟩, false, AppStatus.idle, trs,
                       ac, cc, ss,
                       q ++ [MRTask.dataAvail buf, MRTask.stopFired],
                       fl, sub⟩ := by
                simp [appStep, mrStop]
              rw [hstep]
              refine ⟨?_, by simp⟩
              have h1 : mrTok (some ⟨RStat.recording, buf⟩) = 1 := rfl
              have h2 : mrTok (some ⟨RStat.inactive, []⟩) = 0 := rfl
              have h3 : stopCount
                  [MRTask.dataAvail buf, MRTask.stopFired] = 1 := rfl
              rw [h1] at hsum
              show 0 + stopCount
                  (q ++ [MRTask.dataAvail buf, MRTask.stopFired])
                  + fl.length = 1
              rw [stopCount_append, h3]
              omega

/-- Effect of `mediaRecorder.start()` touches only the recorder handle. -/
theorem mrStart_proj (x : App) :
    (mrStart x).transcriptions = x.transcriptions ∧
    (mrStart x).status = x.status ∧
    (mrStart x).inFlight = x.inFlight ∧
    (mrStart x).isRecording = x.isRecording := by
  unfold mrStart
  cases hm : x.mr with
  | none => exact ⟨rfl, rfl, rfl, rfl⟩
  | some r =>
      cases hst : r.stat with
      | recording => simp [hst]
      | inactive => simp [hst]

/-- Function `AudioTranscription.stopRecording` clears the recording flag and touches
no other consumer-visible field. -/
theorem atStopRecording_proj (x : AT) :
    (atStopRecording x).isRecording = false ∧
    (atStopRecording x).error = x.error ∧
    (atStopRecording x).transcription = x.transcription ∧
    (atStopRecording x).audioQueue = x.audioQueue ∧
    (atStopRecording x).submitted = x.submitted ∧
    (atStopRecording x).inFlight = x.inFlight := by
  unfold atStopRecording atMrStop
  cases hm : x.mr with
  | none => exact ⟨rfl, rfl, rfl, rfl, rfl, rfl⟩
  | some r =>
      cases hst : r.stat with
      | recording => simp [hst]
      | inactive => simp [hst]

theorem appInv_run (a : App) (tr : List L) (h : AppInv a)
    (htr : ∀ l ∈ tr, l ≠ L.start) : AppInv (runAppFrom a tr) := by
  induction tr generalizing a with
  | nil => exact h
  | cons l tr ih =>
      exact ih (appStep a l)
        (appInv_step a l h (htr l (List.mem_cons_self l tr)))
        (fun l' hl' => htr l' (List.mem_cons_of_mem _ hl'))

/-! ## Claim C2 — capture during in-flight requests -/

/-- C2 (amended): in TranscriptionApp, within a single session (no restart),
at most one transcription request is ever in flight, and whenever one is in
flight the recorder is inactive — submitting a segment pauses recording
until the response returns (the `onstop` handler awaits the fetch before
calling `mediaRecorder.start()` again). -/
theorem app_in_flight_pauses_recording (tr : List L)
    (htr : ∀ l ∈ tr, l ≠ L.start) :
    (runAppFrom startedApp tr).inFlight.length ≤ 1 ∧
      ((runAppFrom startedApp tr).inFlight ≠ [] →
        ∃ r, (runAppFrom startedApp tr).mr = some r ∧
          r.stat = RStat.inactive) := by
  have hinv : AppInv startedApp := ⟨by decide, by decide⟩
  obtain ⟨hsum, hmr⟩ := appInv_run startedApp tr hinv htr
  constructor
  · omega
  · intro hne
    have hlen : 1 ≤ (runAppFrom startedApp tr).inFlight.length := by
      cases hfl : (runAppFrom startedApp tr).inFlight with
      | nil => exact absurd hfl hne
      | cons x xs => simp
    cases hm : (runAppFrom startedApp tr).mr with
    | none => exact absurd hm hmr
    | some r =>
        refine ⟨r, rfl, ?_⟩
        cases hst : r.stat with
        | inactive => rfl
        | recording =>
            exfalso
            have h1 : mrTok (runAppFrom startedApp tr).mr = 1 := by
              rw [hm]
              simp [mrTok, hst]
            omega

/-- C2 witness: a concrete single-session trace with a request in flight —
the recorder is inactive while it is outstanding. -/
theorem app_in_flight_pauses_recording_instance :
    (runAppFrom startedApp [L.cap 5, L.stop, L.task, L.task]).inFlight.length ≤ 1 ∧
      ((runAppFrom startedApp [L.cap 5, L.stop, L.task, L.task]).inFlight ≠ [] →
        ∃ r, (runAppFrom startedApp [L.cap 5, L.stop, L.task, L.task]).mr = some r ∧
          r.stat = RStat.inactive) :=
  app_in_flight_pauses_recording [L.cap 5, L.stop, L.task, L.task] (by decide)

/-- C2 counterexample: a reachable run of TranscriptionApp (from the pristine
component, user actions included) in which two requests are outstanding while
the recorder is stopped — in particular a silence-triggered submission at
t=1001 leaves recording paused while its request is in flight, refuting
"submitting a segment never pauses recording". -/
theorem app_concurrent_capture_counterexample :
    (runApp [L.start, L.cap 5, L.stop, L.task, L.task, L.start, L.cap 6,
             L.vad true 0, L.vad true 1001, L.task, L.task]).inFlight
        = [[5], [6]] ∧
      (runApp [L.start, L.cap 5, L.stop, L.task, L.task, L.start, L.cap 6,
               L.vad true 0, L.vad true 1001, L.task, L.task]).mr
        = some ⟨RStat.inactive, []⟩ := by
  refine ⟨by decide, by decide⟩

/-! ## Claim C3 — failed requests -/

/-- C3 (amended): a failed request never raises out of the handlers, and in
TranscriptionApp it is isolated: no transcript entry is added, the status
returns to `"recording"`, and an inactive recorder is restarted, so the
session continues.  In AudioTranscription, however, the catch branch of
`processAudioChunk` sets the error state and calls `stopRecording`: a single
failed segment ends the session.  Neither component produces a per-segment
`{sequenceNumber, error}` result. -/
theorem failure_caught_sessions_diverge :
    (∀ (s : App) (b : List ℕ) (rest : List (List ℕ)),
        s.inFlight = b :: rest →
        ((appStep s (L.net none)).transcriptions = s.transcriptions ∧
         (appStep s (L.net none)).status = AppStatus.recording ∧
         (appStep s (L.net none)).inFlight = rest ∧
         (∀ d, s.mr = some ⟨RStat.inactive, d⟩ →
            (appStep s (L.net none)).mr = some ⟨RStat.recording, []⟩))) ∧
    (∀ (t : AT) (b : List ℕ) (rest : List (List ℕ)),
        t.inFlight = b :: rest →
        ((atStep t (ATL.net none)).isRecording = false ∧
         (atStep t (ATL.net none)).error = some ("Error processing audio") ∧
         (atStep t (ATL.net none)).transcription = t.transcription)) := by
  constructor
  · intro s b rest hfl
    obtain ⟨mr, isR, st, trs, ac, cc, ss, q, fl, sub⟩ := s
    simp only at hfl
    subst hfl
    have hred : appStep ⟨mr, isR, st, trs, ac, cc, ss, q, b :: rest, sub⟩
        (L.net none)
        = mrStart ⟨mr, isR, AppStatus.recording, trs, ac, cc, ss, q,
                   rest, sub⟩ := rfl
    rw [hred]
    refine ⟨(mrStart_proj _).1, (mrStart_proj _).2.1,
            (mrStart_proj _).2.2.1, ?_⟩
    intro d hd
    simp only at hd
    subst hd
    rfl
  · intro t b rest hfl
    obtain ⟨isR, trc, er, mr, aq, ts, tp, fl, sub, q⟩ := t
    simp only at hfl
    subst hfl
    have hred : atStep ⟨isR, trc, er, mr, aq, ts, tp, b :: rest, sub, q⟩
        (ATL.net none)
        = atStopRecording ⟨isR, trc, some ("Error processing audio"), mr, aq,
                           ts, tp, rest, sub, q⟩ := rfl
    rw [hred]
    exact ⟨(atStopRecording_proj _).1, (atStopRecording_proj _).2.1,
           (atStopRecording_proj _).2.2.1⟩

/-- C3 witness: concrete failed completions in both components. -/
theorem failure_caught_instance :
    (appStep ⟨some ⟨RStat.inactive, []⟩, false, AppStatus.transcribing,
              [], [], [], none, [], [[5]], [[5]]⟩ (L.net none)).status
        = AppStatus.recording ∧
      (atStep ⟨true, "", none, some ⟨RStat.recording, []⟩,
               [], false, false, [[5]], [[5]], []⟩ (ATL.net none)).isRecording
        = false :=
  ⟨(failure_caught_sessions_diverge.1 _ [5] [] rfl).2.1,
   (failure_caught_sessions_diverge.2 _ [5] [] rfl).1⟩

/-- C3 counterexample: in AudioTranscription one failed request stops the
session — after capture, silence-triggered submission and a failed network
completion, `isRecording` is false and the error state is set, so capture of
subsequent segments does not continue. -/
theorem at_failure_stops_session_counterexample :
    (runAT [ATL.start, ATL.cap 5, ATL.flush, ATL.task, ATL.vadTick true,
            ATL.timerFire, ATL.net none]).isRecording = false ∧
      (runAT [ATL.start, ATL.cap 5, ATL.flush, ATL.task, ATL.vadTick true,
              ATL.timerFire, ATL.net none]).error ≠ none ∧
      (runAT [ATL.start, ATL.cap 5, ATL.flush, ATL.task, ATL.vadTick true,
              ATL.timerFire, ATL.net none]).submitted = [[5]] := by
  refine ⟨by decide, by decide, by decide⟩

/-! ## Claim C6 — stop() and the trailing utterance -/

/-- C6 (amended): in TranscriptionApp, `stopRecording` mid-speech stops the
recorder, whose flushed final data is assembled by the `onstop` handler and
submitted for transcription — though `status` is set to `"idle"` immediately,
*before* the submission happens.  In AudioTranscription, `stopRecording`
flushes the trailing audio into `audioQueue` but nothing ever submits it:
the trailing utterance is silently dropped there. -/
theorem stop_finalization_behavior :
    (∀ (s : App) (b : List ℕ),
        s.mr = some ⟨RStat.recording, b⟩ → s.currentChunks = [] →
        s.queue = [] →
        ((runAppFrom s [L.stop, L.task, L.task]).submitted
            = s.submitted ++ [b] ∧
         (runAppFrom s [L.stop, L.task, L.task]).inFlight
            = s.inFlight ++ [b] ∧
         (appStep s L.stop).status = AppStatus.idle ∧
         (appStep s L.stop).isRecording = false)) ∧
    (∀ (t : AT) (b : List ℕ),
        t.mr = some ⟨RStat.recording, b⟩ → t.queue = [] → b ≠ [] →
        ((runATFrom t [ATL.stopU, ATL.task, ATL.task]).submitted
            = t.submitted ∧
         (runATFrom t [ATL.stopU, ATL.task, ATL.task]).audioQueue
            = t.audioQueue ++ [b] ∧
         (runATFrom t [ATL.stopU, ATL.task, ATL.task]).isRecording
            = false)) := by
  constructor
  · intro s b hmr hcc hq
    obtain ⟨mr, isR, st, trs, ac, cc, ss, q, fl, sub⟩ := s
    simp only at hmr hcc hq
    subst hmr; subst hcc; subst hq
    refine ⟨?_, ?_, rfl, rfl⟩
    · show sub ++ [List.flatten ([] ++ [b])] = sub ++ [b]
      simp
    · show fl ++ [List.flatten ([] ++ [b])] = fl ++ [b]
      simp
  · intro t b hmr hq hb
    obtain ⟨isR, trc, er, mr, aq, ts, tp, fl, sub, q⟩ := t
    simp only at hmr hq
    subst hmr; subst hq
    refine ⟨?_, ?_, ?_⟩
    · show (runATFrom _ [ATL.task, ATL.task]).submitted = sub
      simp [runATFrom, atStep, atStopRecording, atMrStop, hb]
    · show (runATFrom _ [ATL.task, ATL.task]).audioQueue = aq ++ [b]
      simp [runATFrom, atStep, atStopRecording, atMrStop, hb]
    · show (runATFrom _ [ATL.task, ATL.task]).isRecording = false
      simp [runATFrom, atStep, atStopRecording, atMrStop, hb]

/-- C6 witness: a session with 7 captured in the recorder buffer; user stop
followed by the two queued recorder events submits blob `[7]`. -/
theorem stop_finalization_instance :
    (runAppFrom (appStep startedApp (L.cap 7))
        [L.stop, L.task, L.task]).submitted = [[7]] :=
  (stop_finalization_behavior.1 (appStep startedApp (L.cap 7)) [7]
    rfl rfl rfl).1

/-- C6 counterexample: in AudioTranscription, stopping mid-utterance leaves
the flushed trailing audio in `audioQueue` with nothing submitted — the
trailing utterance is silently dropped, refuting the claim for this
component. -/
theorem at_stop_drops_audio_counterexample :
    (runAT [ATL.start, ATL.cap 5, ATL.stopU, ATL.task, ATL.task]).submitted
        = [] ∧
      (runAT [ATL.start, ATL.cap 5, ATL.stopU, ATL.task,
              ATL.task]).audioQueue = [[5]] ∧
      (runAT [ATL.start, ATL.cap 5, ATL.stopU, ATL.task,
              ATL.task]).isRecording = false ∧
      (runAT [ATL.start, ATL.cap 5, ATL.stopU, ATL.task,
              ATL.task]).inFlight = [] := by
  refine ⟨by decide, by decide, by decide, by decide⟩

/-! ## Claim C7 — start() and session reset -/

/-- C7 (amended): `startRecording` installs a fresh recorder and sets the
recording flags, but resets none of the other entities: the transcript,
the stored audio chunks, the fragment accumulator and the silence timestamp
all keep their previous values (and no sequence counter exists at all).
Likewise in AudioTranscription, where only `error` is cleared. -/
theorem start_does_not_reset_state :
    (∀ s : App,
        (appStep s L.start).transcriptions = s.transcriptions ∧
        (appStep s L.start).audioChunks = s.audioChunks ∧
        (appStep s L.start).currentChunks = s.currentChunks ∧
        (appStep s L.start).silenceStart = s.silenceStart ∧
        (appStep s L.start).inFlight = s.inFlight ∧
        (appStep s L.start).mr = some ⟨RStat.recording, []⟩ ∧
        (appStep s L.start).isRecording = true ∧
        (appStep s L.start).status = AppStatus.recording) ∧
    (∀ t : AT,
        (atStep t ATL.start).transcription = t.transcription ∧
        (atStep t ATL.start).audioQueue = t.audioQueue ∧
        (atStep t ATL.start).inFlight = t.inFlight ∧
        (atStep t ATL.start).error = none ∧
        (atStep t ATL.start).mr = some ⟨RStat.recording, []⟩) :=
  ⟨fun s => ⟨rfl, rfl, rfl, rfl, rfl, rfl, rfl, rfl⟩,
   fun t => ⟨rfl, rfl, rfl, rfl, rfl⟩⟩

/-- C7 counterexample: after a full first session whose segment transcribed
to "a", a second `startRecording` leaves the transcript `["a"]` and even the
stale fragment accumulator `[[5]]` in place — nothing is reset to its
initial empty state on the Idle → Capturing transition. -/
theorem start_reset_counterexample :
    (runApp [L.start, L.cap 5, L.stop, L.task, L.task, L.net (some ("a")),
             L.start]).transcriptions = ["a"] ∧
      (runApp [L.start, L.cap 5, L.stop, L.task, L.task, L.net (some ("a")),
               L.start]).currentChunks = [[5]] ∧
      (runApp [L.start, L.cap 5, L.stop, L.task, L.task, L.net (some ("a")),
               L.start]).transcriptions ≠ [] := by
  refine ⟨by decide, by decide, by decide⟩

/-! ## Claim C10 — stop on an idle session -/

/-- C10: `stopRecording` with a null or inactive `mediaRecorder` is a
no-op — every piece of TranscriptionApp state is unchanged. -/
theorem idle_stop_noop (a : App)
    (h : ∀ r, a.mr = some r → r.stat = RStat.inactive) :
    appStep a L.stop = a := by
  unfold appStep
  cases hm : a.mr with
  | none => rfl
  | some r =>
      have hst := h r hm
      simp [hst]

/-- C10 witness: stop on the pristine component (null recorder) and on a
stopped recorder, both unchanged. -/
theorem idle_stop_noop_instance :
    appStep appInit L.stop = appInit ∧
      appStep ⟨some ⟨RStat.inactive, []⟩, false, AppStatus.idle, [], [], [],
               none, [], [], []⟩ L.stop
        = ⟨some ⟨RStat.inactive, []⟩, false, AppStatus.idle, [], [], [],
           none, [], [], []⟩ :=
  ⟨idle_stop_noop appInit (fun r h => nomatch h),
   idle_stop_noop _ (fun r h => by cases h; rfl)⟩

/-! ## Claim C1 — transcript order under out-of-order completion -/

/-- C1 (amended): in RealTimeTranscriptionVAD the transcript lists texts in
request **completion** order (each completion appends), not in capture
order; there is no reassembly by sequence number. -/
theorem rtv_transcript_completion_order (tr : List RL)
    (h : validFrom rtvInit tr = true) :
    (runRTV tr).transcription = succTexts tr :=
  (rtv_run_spec tr rtvInit h).2

/-- C1 witness: a one-segment trace; the transcript is the completion
text. -/
theorem rtv_transcript_completion_order_instance :
    (runRTV [RL.speechEnd [3], RL.net 0 (some ("x"))]).transcription
        = ["x"] :=
  (rtv_transcript_completion_order [RL.speechEnd [3], RL.net 0 (some ("x"))]
    (by decide)).trans (by decide)

/-- C1 counterexample: segments 1 and 2 captured in that order; segment 2's
response ("b") arrives first, segment 1's ("a") second — the transcript
reads ["b", "a"], not ["a", "b"] as the claim requires. -/
theorem rtv_capture_order_counterexample :
    (runRTV [RL.speechEnd [1], RL.speechEnd [2], RL.net 1 (some ("b")),
             RL.net 0 (some ("a"))]).transcription = ["b", "a"] ∧
      (["b", "a"] : List String) ≠ ["a", "b"] := by
  refine ⟨by decide, by decide⟩

/-! ## Claim C9 — audioList prepend, transcription append -/

/-- C9: in RealTimeTranscriptionVAD, every finished utterance is prepended
to `audioList` (newest first, i.e. reverse capture order) while each
completed request appends its text to `transcription` (completion order). -/
theorem rtv_audio_prepend_transcript_append (tr : List RL)
    (h : validFrom rtvInit tr = true) :
    (runRTV tr).audioList = (captures tr).reverse ∧
      (runRTV tr).transcription = succTexts tr := by
  have hspec := rtv_run_spec tr rtvInit h
  constructor
  · exact hspec.1.trans (by simp [rtvInit])
  · exact hspec.2

/-- C9 witness: two utterances, completions out of order — `audioList` holds
the clips newest-first, `transcription` the texts in completion order. -/
theorem rtv_order_instance :
    (runRTV [RL.speechEnd [1], RL.speechEnd [2], RL.net 1 (some ("b")),
             RL.net 0 (some ("a"))]).audioList = [[2], [1]] ∧
      (runRTV [RL.speechEnd [1], RL.speechEnd [2], RL.net 1 (some ("b")),
               RL.net 0 (some ("a"))]).transcription = ["b", "a"] := by
  have h := rtv_audio_prepend_transcript_append
    [RL.speechEnd [1], RL.speechEnd [2], RL.net 1 (some ("b")),
     RL.net 0 (some ("a"))] (by decide)
  exact ⟨h.1.trans (by decide), h.2.trans (by decide)⟩

end WhisperStream
